import Mathlib

/-!
# Verification of the OpenEDGAR ingestion pipeline (rla3rd/openedgar)

Shallow embedding of the ingestion core:

* `openedgar/clients/openedgar.py` — `get_buffer` (Retriever) and
  `list_path` (Listing Parser);
* `openedgar/tasks.py` — `create_filing_documents`, `create_filing_error`
  and `process_filing` (Content Store writes and Catalog Reconciler /
  Orchestrator);
* `openedgar/models.py` / migrations — the catalog rows the tasks touch.

Modelling conventions:

* Python byte strings are `List Nat`; SHA-1 is modelled as an injective
  content-determined digest (`sha1 := id`): no claim here depends on hash
  collisions, only on "same bytes → same digest".
* The Django ORM is explicit state: each table is a `List` of row
  structures.  `Model.save()` with a set primary key is Django's
  update-or-insert, embedded as `saveFilingUpsert`.  `bulk_create` fails
  (IntegrityError) exactly when the batch would violate the
  `unique_together('filing','sequence')` constraint of `FilingDocument`.
* Schema note: the repository is mid-refactor.  `tasks.py` manipulates the
  filing table under two names (`Filing` and `CompanyFiling`) and with the
  column set of migration 0008's `CompanyFiling`
  (`accession_number` pk, `form_type`, `date_filed`, `sha1`, `s3_path`,
  `document_count`, `is_processed`, `is_error`, `cik`), while `models.py`
  re-declares `Filing` with a `path` column.  The embedding uses one filing
  table with the columns `tasks.py` reads and writes; `create_filing_error`
  addresses the path column as `path`, `process_filing` as `s3_path` —
  both are the single storage-path field here.  Likewise `CompanyInfo` is
  embedded with the fields `tasks.py` uses
  (`company`, `name`, `sic`, `state_incorporation`, `state_location`,
  `date`).
* The filing splitter `openedgar.parsers.openedgar.parse_filing` is not in
  the source tree; its output shape (`FilingData`, `DocumentData`) is
  modelled from the spec (§4.3) and from the fields `tasks.py` reads.
* Concurrency: a concurrent worker's insertion of the same `Company` row
  between our existence check and our `save()` is injected as an explicit
  `race : Option Company` argument consumed at the save point.
-/

/-- A Python byte string, as a list of byte values. -/
abbrev Buffer := List Nat

/-- A content digest.  SHA-1 is modelled as an injective digest of the
bytes: claims here use only that equal bytes have equal digests. -/
abbrev Digest := List Nat

/-- Model of `hashlib.sha1(buffer).hexdigest()`: content-determined digest. -/
def sha1 (b : Buffer) : Digest := b

/-- `needle in haystack` on byte strings (Python `bytes.__contains__`):
`needle` occurs as a contiguous infix. -/
def bufContains (haystack needle : Buffer) : Bool :=
  match haystack with
  | [] => needle.isEmpty
  | _ :: t => needle.isPrefixOf haystack || bufContains t needle

/-! ## Retriever: `get_buffer` (clients/openedgar.py, lines 52-108) -/

/-- One successful HTTP response, as seen by `get_buffer`'s success branch:
status code (never inspected by the source), body bytes (`r.content`) and
the already-parsed `Last-Modified` header if present and parseable. -/
structure FetchResult where
  status : Nat
  content : Buffer
  lastModified : Option Nat
deriving DecidableEq, Repr

/-- The three poison markers (clients/openedgar.py lines 97-101), modelled
as abstract byte strings; the source matches literal byte constants. -/
def rateLimitMarker : Buffer := [1]
def notFoundMarker : Buffer := [2]
def accessDeniedMarker : Buffer := [3]

/-- The `while not complete` retry loop of `get_buffer`
(clients/openedgar.py lines 71-95).  `fetch n` is the outcome of the
`n`-th attempt (`none` = transport exception); `rest` is the not yet
consumed suffix of `HTTP_FAIL_SLEEP` (the source indexes
`HTTP_FAIL_SLEEP[failures]`, with `rest = HTTP_FAIL_SLEEP.drop failures`).
Returns the response if one was obtained, the list of backoff delays slept
(in order) and the total number of attempts made. -/
def getBufferLoop (fetch : Nat → Option FetchResult) :
    Nat → List Nat → Option FetchResult × List Nat × Nat
  | failures, rest =>
    match fetch failures with
    | some r => (some r, [], failures + 1)
    | none =>
      match rest with
      | [] =>
        -- `failures < len(HTTP_FAIL_SLEEP)` is false: return the best
        -- available result (line 95), before any poison check
        (none, [], failures + 1)
      | d :: rest' =>
        -- sleep `HTTP_FAIL_SLEEP[failures]`, increment `failures`, retry
        let out := getBufferLoop fetch (failures + 1) rest'
        (out.1, d :: out.2.1, out.2.2)

/-- Decidable equality for `Except`, used to evaluate results concretely. -/
instance {ε α : Type} [DecidableEq ε] [DecidableEq α] :
    DecidableEq (Except ε α) := fun a b =>
  match a, b with
  | .ok x, .ok y =>
    if h : x = y then .isTrue (by rw [h]) else .isFalse (by simp [h])
  | .error x, .error y =>
    if h : x = y then .isTrue (by rw [h]) else .isFalse (by simp [h])
  | .ok _, .error _ => .isFalse (by simp)
  | .error _, .ok _ => .isFalse (by simp)

/-- Result of `get_buffer`: either a raised `RuntimeError` with its message
(the three poison branches, lines 97-102), or the returned pair
`(file_buffer, last_modified_date)` — both `None` when the backoff
sequence was exhausted.  Also exposes the slept backoff delays and the
attempt count, which are side effects of the loop. -/
structure GetBufferResult where
  outcome : Except String (Option Buffer × Option Nat)
  slept : List Nat
  attempts : Nat
deriving DecidableEq, Repr

/-- `get_buffer` (clients/openedgar.py lines 52-108), for a call where the
URL has been resolved; `failSleep` is the configured `HTTP_FAIL_SLEEP`
backoff sequence and `fetch` the transport.  The inter-request
`HTTP_SLEEP_DEFAULT` delay has no observable effect on the result and is
not modelled. -/
def get_buffer (fetch : Nat → Option FetchResult) (failSleep : List Nat) :
    GetBufferResult :=
  let out := getBufferLoop fetch 0 failSleep
  match out.1 with
  | none =>
    -- exhaustion returned `file_buffer = None` at line 95: no poison check
    ⟨.ok (none, none), out.2.1, out.2.2⟩
  | some r =>
    if bufContains r.content rateLimitMarker then
      ⟨.error "Exceeded SEC request rate threshold; invalid data retrieved",
        out.2.1, out.2.2⟩
    else if bufContains r.content notFoundMarker then
      ⟨.error "HTTP 404 for requested path", out.2.1, out.2.2⟩
    else if bufContains r.content accessDeniedMarker then
      ⟨.error "Access denied accessing path", out.2.1, out.2.2⟩
    else
      ⟨.ok (some r.content, r.lastModified), out.2.1, out.2.2⟩

/-! ## Listing Parser: `list_path` (clients/openedgar.py, lines 111-150) -/

/-- An anchor element of the listing page: its `href` attribute and its
rendered text (`lxml.html.tostring(l, method="text")`). -/
structure Link where
  href : String
  text : String
deriving DecidableEq, Repr

/-- The parsed HTML document, abstracted to what `list_path` consumes:
the anchors below the `main-content` element, or `none` when
`get_element_by_id("main-content")` raises `KeyError`. -/
structure HtmlDoc where
  mainContent : Option (List Link)
deriving DecidableEq, Repr

/-- `needle in haystack` on character lists. -/
def charListContains (haystack needle : List Char) : Bool :=
  match haystack with
  | [] => needle.isEmpty
  | _ :: t => needle.isPrefixOf haystack || charListContains t needle

/-- Substring test on strings (Python `"…" in text`). -/
def strContains (haystack needle : String) : Bool :=
  charListContains haystack.toList needle.toList

/-- Python `s.startswith(pre)`. -/
def pyStartsWith (s pre : String) : Bool :=
  pre.toList.isPrefixOf s.toList

/-- Python `s.lstrip("/")`: drop every leading `'/'`. -/
def pyLstripSlash (s : String) : String :=
  String.mk (s.toList.dropWhile (· = '/'))

/-- Python `sep.join(parts)`. -/
def pyJoin (sep : String) : List String → String
  | [] => ""
  | [x] => x
  | x :: xs => x ++ sep ++ pyJoin sep xs

/-- Href normalization of `list_path` (clients/openedgar.py lines 137-143):
an absolute-rooted href is kept as-is; otherwise the source appends
`"/".join([remote_path, href.lstrip("/")])`. -/
def normalizeHref (remote_path href : String) : String :=
  if pyStartsWith href "/" then href
  else pyJoin "/" [remote_path, pyLstripSlash href]

/-- `list_path` (clients/openedgar.py lines 111-150), past retrieval:
`remoteBuffer` is the `file_buffer` produced by `get_buffer` (`none` when
retrieval exhausted its retries) and `parseHtml` stands for
`lxml.html.fromstring`.  Returns `none` for the `KeyError` branch
("Unable to find main-content tag", line 146). -/
def list_path (parseHtml : Buffer → HtmlDoc) (remote_path : String)
    (remoteBuffer : Option Buffer) : Option (List String) :=
  match remoteBuffer with
  | none => some []
  | some buf =>
    match (parseHtml buf).mainContent with
    | none => none
    | some linkList =>
      let goodLinkList :=
        linkList.filter (fun l => !strContains l.text "Parent Directory")
      some (goodLinkList.map (fun l => normalizeHref remote_path l.href))

/-! ## Catalog rows (openedgar/models.py and migration 0008) -/

/-- `Company` (models.py lines 31-48): `cik` is the primary key.
`process_filing` creates companies with only `cik` set, so `cik_name` is
optional here. -/
structure Company where
  cik : Nat
  cik_name : Option String
deriving DecidableEq, Repr

/-- `CompanyInfo`, with the fields `tasks.py` reads and writes
(`company`, `name`, `sic`, `state_incorporation`, `state_location`,
`date`); dates are abstract `Nat` values. -/
structure CompanyInfo where
  company : Nat
  name : Option String
  sic : Option String
  state_incorporation : Option String
  state_location : Option String
  date : Option Nat
deriving DecidableEq, Repr

/-- The filing table (migration 0008 `CompanyFiling`; `Filing` in
models.py), with the columns `tasks.py` uses.  `accession_number` is the
primary key; `create_filing_error` rows never set it, hence `Option`. -/
structure FilingRow where
  accession_number : Option String
  form_type : Option String
  date_filed : Option Nat
  cik : Nat
  sha1 : Option Digest
  s3_path : String
  document_count : Nat
  is_processed : Bool
  is_error : Bool
deriving DecidableEq, Repr

/-- `FilingDocument` (models.py lines 233-252); `filing` is the foreign
key to the filing's accession number; `unique_together('filing',
'sequence')`. -/
structure DocRow where
  filing : String
  type : Option String
  sequence : Nat
  file_name : Option String
  content_type : Option String
  description : Option String
  sha1 : Digest
  start_pos : Nat
  end_pos : Nat
  is_processed : Bool
  is_error : Bool
deriving DecidableEq, Repr

/-- The catalog state: one list per table touched by the embedded tasks. -/
structure DB where
  companies : List Company
  company_infos : List CompanyInfo
  filings : List FilingRow
  filing_documents : List DocRow
deriving DecidableEq, Repr

/-! ## Splitter output (modelled from the spec) -/

/-- Modelled from the spec: one sub-document descriptor produced by the
filing splitter `openedgar.parsers.openedgar.parse_filing`, whose source
is not in the tree.  Fields are those §4.3 of the spec lists and
`create_filing_documents` reads (`document["type"]`, `["sequence"]`,
`["file_name"]`, `["content_type"]`, `["description"]`, `["sha1"]`,
`["start_pos"]`, `["end_pos"]`, `["content"]`, `["content_text"]`). -/
structure DocumentData where
  type : Option String
  sequence : Nat
  file_name : Option String
  content_type : Option String
  description : Option String
  sha1 : Digest
  start_pos : Nat
  end_pos : Nat
  content : Buffer
  content_text : Option String
deriving DecidableEq, Repr

/-- Modelled from the spec: the `FilingRecord` returned by the splitter
(§4.3), with the fields `process_filing` reads (`filing_data["cik"]`,
`["company_name"]`, `["sic"]`, `["state_incorporation"]`,
`["state_location"]`, `["form_type"]`, `["accession_number"]`,
`["date_filed"]`, `["document_count"]`, `["documents"]`).  `cik` is
`none` when no registrant identifier could be parsed. -/
structure FilingData where
  cik : Option Nat
  company_name : Option String
  sic : Option String
  state_incorporation : Option String
  state_location : Option String
  form_type : Option String
  accession_number : String
  date_filed : Option Nat
  document_count : Nat
  documents : List DocumentData
deriving DecidableEq, Repr

/-! ## Content Store (S3Client / LocalClient interface) -/

/-- Blob namespace under `S3_DOCUMENT_PATH`: `"raw"` vs `"text"`
(tasks.py lines 645 and 656).  The constant `S3_DOCUMENT_PATH` prefix is
common to every path and dropped. -/
inductive Kind
  | raw
  | text
deriving DecidableEq, Repr

/-- A stored value: raw document bytes, or the derived text
(`put_buffer(..., write_bytes=False)` stores a string). -/
inductive ContentVal
  | rawBytes (b : Buffer)
  | textStr (s : String)
deriving DecidableEq, Repr

/-- Content-store path: `pathlib.Path(S3_DOCUMENT_PATH, kind, sha1)`. -/
abbrev StorePath := Kind × Digest

/-- The content store state, as a list of `(path, value)` blobs. -/
abbrev Store := List (StorePath × ContentVal)

/-- `client.path_exists` on the store model. -/
def path_exists (st : Store) (p : StorePath) : Bool :=
  st.any (fun e => e.1 = p)

/-- `client.put_buffer` on the store model. -/
def put_buffer (st : Store) (p : StorePath) (v : ContentVal) : Store :=
  st ++ [(p, v)]

/-! ## `create_filing_documents` (tasks.py lines 612-667) -/

/-- The `FilingDocument` record built per document (tasks.py lines
628-641): `is_processed = True` unconditionally and
`is_error = len(document["content"]) > 0`. -/
def mkDocRow (filingAcc : String) (d : DocumentData) : DocRow where
  filing := filingAcc
  type := d.type
  sequence := d.sequence
  file_name := d.file_name
  content_type := d.content_type
  description := d.description
  sha1 := d.sha1
  start_pos := d.start_pos
  end_pos := d.end_pos
  is_processed := true
  is_error := decide (d.content.length > 0)

/-- The `if not client.path_exists(path): client.put_buffer(path, …)`
idiom of tasks.py lines 646-647 and 657-658: the put is a no-op when a
blob already exists at the path. -/
def putIfAbsent (st : Store) (p : StorePath) (v : ContentVal) : Store :=
  if path_exists st p then st else put_buffer st p v

/-- The store writes of one loop iteration (tasks.py lines 643-663):
the raw blob when `store_raw` and the content is non-empty, the text blob
when `store_text` and a text rendering exists — each skipped when
`path_exists` already holds for its path. -/
def storeDocStep (store_raw store_text : Bool) (st : Store)
    (d : DocumentData) : Store :=
  let st1 :=
    if store_raw ∧ d.content.length > 0 then
      putIfAbsent st (Kind.raw, d.sha1) (ContentVal.rawBytes d.content)
    else st
  match d.content_text with
  | some t =>
    if store_text then
      putIfAbsent st1 (Kind.text, d.sha1) (ContentVal.textStr t)
    else st1
  | none => st1

/-- The `unique_together('filing','sequence')` key of a document row. -/
def docKey (r : DocRow) : String × Nat := (r.filing, r.sequence)

/-- `create_filing_documents` (tasks.py lines 612-667).  The single
source loop both accumulates `document_records` and performs the guarded
store writes; the two effects are independent across iterations and are
embedded as a `map` (records) and a `foldl` (store).  The final
`FilingDocument.objects.bulk_create` raises `IntegrityError` exactly when
the batch together with the existing rows violates the
`unique_together('filing','sequence')` constraint; the store writes have
already happened by then and persist either way. -/
def create_filing_documents (st : Store) (existingDocs : List DocRow)
    (documents : List DocumentData) (filingAcc : String)
    (store_raw store_text : Bool) : Store × Except String (List DocRow) :=
  let document_records := documents.map (mkDocRow filingAcc)
  let st' := documents.foldl (storeDocStep store_raw store_text) st
  if ((existingDocs ++ document_records).map docKey).Nodup then
    (st', .ok (existingDocs ++ document_records))
  else
    (st', .error "IntegrityError")

/-! ## Catalog primitives shared by the tasks -/

/-- `Company.objects.get(cik=…)` as an optional lookup. -/
def findCompany (db : DB) (cik : Nat) : Option Company :=
  db.companies.find? (fun c => c.cik = cik)

/-- `CompanyInfo.objects.get(company=…, date=…)` existence test. -/
def companyInfoExists (db : DB) (cik : Nat) (date : Option Nat) : Bool :=
  db.company_infos.any (fun i => i.company = cik ∧ i.date = date)

/-- `company.save()` on a fresh instance: insert, or `IntegrityError`
when a row with the same `cik` primary key already exists. -/
def trySaveCompany (db : DB) (c : Company) : Except String DB :=
  if db.companies.any (fun c' => c'.cik = c.cik) then .error "IntegrityError"
  else .ok { db with companies := db.companies ++ [c] }

/-- `filing.save()` with the `accession_number` primary key set:
Django's update-or-insert (UPDATE the row with that key if present,
else INSERT). -/
def saveFilingUpsert (fs : List FilingRow) (row : FilingRow) :
    List FilingRow :=
  if fs.any (fun r => r.accession_number = row.accession_number) then
    fs.map (fun r => if r.accession_number = row.accession_number then row
                     else r)
  else fs ++ [row]

/-! ## `create_filing_error` (tasks.py lines 670-737) -/

/-- One row of the filing index feed, as `create_filing_error` reads it:
`row["CIK"]`, `row["Company Name"]`, `row["Form Type"]`,
`row["Date Filed"]` (the latter after the `dateutil` parse of lines
682-687, whose failure yields `None`). -/
structure IndexRow where
  cik : Nat
  company_name : Option String
  form_type : Option String
  date_filed : Option Nat
deriving DecidableEq, Repr

/-- The empty error filing record of `create_filing_error` (tasks.py lines
689-695): `is_error=True`, `is_processed=False`, path set, everything
else left at its default. -/
def mkErrorFiling (row : IndexRow) (filing_path : String) (cik : Nat) :
    FilingRow where
  accession_number := none
  form_type := row.form_type
  date_filed := row.date_filed
  cik := cik
  sha1 := none
  s3_path := filing_path
  document_count := 0
  is_processed := false
  is_error := true

/-- The `CompanyInfo` record `create_filing_error` creates (tasks.py lines
704-712 and 724-732). -/
def mkErrorCompanyInfo (row : IndexRow) : CompanyInfo where
  company := row.cik
  name := row.company_name
  sic := none
  state_incorporation := none
  state_location := none
  date := row.date_filed

/-- Shared tail of `create_filing_error` once the company row exists or
was saved: optionally create the `CompanyInfo` record, then save the
error filing (tasks.py lines 701-712 / 724-736). `checkInfo` is true on
the company-exists branch, which guards the info insert behind a
`CompanyInfo.objects.get` probe; the company-created branch inserts
unconditionally. -/
def createFilingErrorFinish (db : DB) (row : IndexRow)
    (filing_path : String) (checkInfo : Bool) : DB × Bool :=
  let db1 :=
    if checkInfo ∧ companyInfoExists db row.cik row.date_filed then db
    else { db with company_infos := db.company_infos ++ [mkErrorCompanyInfo row] }
  ({ db1 with filings := db1.filings ++ [mkErrorFiling row filing_path row.cik] },
    true)

/-- One run of `create_filing_error` (tasks.py lines 670-737) with no
concurrent writer: look the company up, save it when absent (the save
cannot conflict without interference; the `.error` arm is the dead
`IntegrityError` handler), then write the error filing. -/
def create_filing_error_base (db : DB) (row : IndexRow)
    (filing_path : String) : DB × Bool :=
  match findCompany db row.cik with
  | some _ =>
    -- company exists: maybe create the info record, then save the filing
    createFilingErrorFinish db row filing_path true
  | none =>
    match trySaveCompany db ⟨row.cik, row.company_name⟩ with
    | .ok db1 => createFilingErrorFinish db1 row filing_path false
    | .error _ => createFilingErrorFinish db row filing_path false

/-- `create_filing_error` (tasks.py lines 670-737).  `race` injects a
concurrent worker's insertion of a company row between our
`Company.objects.get` miss and our `company.save()`; the resulting
`IntegrityError` makes the source re-invoke itself
(`return create_filing_error(row, filing_path)`, line 722) — by then the
race is settled, so the retry is the no-interference run
`create_filing_error_base`. -/
def create_filing_error (race : Option Company) (db : DB) (row : IndexRow)
    (filing_path : String) : DB × Bool :=
  match race with
  | none => create_filing_error_base db row filing_path
  | some c' =>
    match findCompany db row.cik with
    | some _ => createFilingErrorFinish db row filing_path true
    | none =>
      -- the concurrent insert lands before our save
      let dbR := { db with companies := db.companies ++ [c'] }
      match trySaveCompany dbR ⟨row.cik, row.company_name⟩ with
      | .ok db1 => createFilingErrorFinish db1 row filing_path false
      | .error _ =>
        -- IntegrityError: retry, with the race resolved
        create_filing_error_base dbR row filing_path

/-! ## `process_filing` (tasks.py lines 858-973) -/

/-- The company / company-info reconciliation of `process_filing`
(tasks.py lines 896-945).  On `Company.DoesNotExist` a fresh company with
only `cik` set is saved; a concurrent creation (`race`) raising
`IntegrityError` is caught and resolved by re-reading
(`company = Company.objects.get(cik=…)`, line 943), skipping the
company-info insert of the create branch. -/
def getOrCreateCompany (db : DB) (race : Option Company) (fd : FilingData)
    (cik : Nat) : DB × Company :=
  match findCompany db cik with
  | some company =>
    -- lines 898-919: existing company; insert info if none for this date
    let db1 :=
      if companyInfoExists db cik fd.date_filed then db
      else { db with company_infos := db.company_infos ++
               [⟨cik, fd.company_name, fd.sic, fd.state_incorporation,
                 fd.state_location, fd.date_filed⟩] }
    (db1, company)
  | none =>
    let newCo : Company := ⟨cik, none⟩
    match race with
    | none =>
      -- lines 921-941 without interference: save succeeds
      match trySaveCompany db newCo with
      | .ok db1 =>
        let db2 :=
          if companyInfoExists db1 cik fd.date_filed then db1
          else { db1 with company_infos := db1.company_infos ++
                   [⟨cik, fd.company_name, fd.sic, fd.state_incorporation,
                     fd.state_location, fd.date_filed⟩] }
        (db2, newCo)
      | .error _ => (db, newCo)
    | some c' =>
      -- the concurrent insert lands before our save
      let dbR := { db with companies := db.companies ++ [c'] }
      match trySaveCompany dbR newCo with
      | .ok db1 =>
        let db2 :=
          if companyInfoExists db1 cik fd.date_filed then db1
          else { db1 with company_infos := db1.company_infos ++
                   [⟨cik, fd.company_name, fd.sic, fd.state_incorporation,
                     fd.state_location, fd.date_filed⟩] }
        (db2, newCo)
      | .error _ =>
        -- lines 942-943: IntegrityError caught, existing row re-read
        (dbR, (findCompany dbR cik).getD newCo)

/-- The new filing row of `process_filing` (tasks.py lines 948-959):
pessimistic `is_processed=False`, `is_error=True`. -/
def newFilingRow (fd : FilingData) (cik : Nat) (file_path : String)
    (filing_buffer : Buffer) : FilingRow where
  accession_number := some fd.accession_number
  form_type := fd.form_type
  date_filed := fd.date_filed
  cik := cik
  sha1 := some (sha1 filing_buffer)
  s3_path := file_path
  document_count := fd.document_count
  is_processed := false
  is_error := true

/-- Result of one `process_filing` run: final catalog and store states,
the return value (`none` for every early-return and error branch, the
saved filing on success), the trace of filing-row saves in order, and
whether `parse_filing` was invoked (the split step). -/
structure PFResult where
  db : DB
  store : Store
  ret : Option FilingRow
  filingSaves : List FilingRow
  parsed : Bool
deriving DecidableEq, Repr

/-- `process_filing` (tasks.py lines 858-973) for a call that passes the
raw bytes (`filing_buffer` not `None`; the fetch-from-store branch of
lines 886-888 is not taken).  `parse` stands for
`openedgar.parsers.openedgar.parse_filing`, `race` for a concurrent
company creation.  Steps: the already-created guard keyed on
`s3_path=file_path` (lines 873-883, returning `None` both when one row
exists and on `MultipleObjectsReturned`), the split, the abort on a
missing CIK (lines 891-894), company reconciliation, the pessimistic
filing save, document commit, and the flip to
`is_processed=True,is_error=False` (lines 964-973; on any document
failure the except branch returns `None` leaving the pessimistic row). -/
def process_filing (db : DB) (st : Store) (race : Option Company)
    (parse : Buffer → FilingData) (file_path : String)
    (filing_buffer : Buffer) (store_raw store_text : Bool) : PFResult :=
  match db.filings.filter (fun f => f.s3_path = file_path) with
  | _ :: _ =>
    -- an existing record (or several): log and return None, untouched
    ⟨db, st, none, [], false⟩
  | [] =>
    let filing_data := parse filing_buffer
    match filing_data.cik with
    | none =>
      -- "Unable to parse CIK from filing …; assuming broken and halting"
      ⟨db, st, none, [], true⟩
    | some cik =>
      let db1 := (getOrCreateCompany db race filing_data cik).1
      let row := newFilingRow filing_data cik file_path filing_buffer
      let db2 := { db1 with filings := saveFilingUpsert db1.filings row }
      let out :=
        create_filing_documents st db2.filing_documents
          filing_data.documents filing_data.accession_number
          store_raw store_text
      let st1 := out.1
      match out.2 with
      | .error _ =>
        -- "Unable to create filing documents": return None, row stays
        ⟨db2, st1, none, [row], true⟩
      | .ok docs =>
        let row2 := { row with is_processed := true, is_error := false }
        let db3 := { db2 with
          filing_documents := docs,
          filings := saveFilingUpsert db2.filings row2 }
        ⟨db3, st1, some row2, [row, row2], true⟩

/-! ## Shared concrete test data -/

/-- A one-document splitter output used by concrete witnesses. -/
def docC : DocumentData :=
  ⟨some "10-K", 1, none, none, none, sha1 [7], 0, 1, [7], none⟩

/-- A splitter output with a parseable CIK, used by concrete witnesses. -/
def fdC : FilingData :=
  ⟨some 100, some "ACME", none, none, none, some "10-K", "A", some 1, 1,
    [docC]⟩

/-- The empty catalog. -/
def dbEmpty : DB := ⟨[], [], [], []⟩

/-! ## Retriever theorems -/

/-- For a transport that always fails, the retry loop consumes the whole
remaining backoff sequence (sleeping each element once, in order) and
returns no buffer after one attempt per element plus the final attempt. -/
theorem getBufferLoop_always_fail (fetch : Nat → Option FetchResult)
    (h : ∀ n, fetch n = none) :
    ∀ (rest : List Nat) (failures : Nat),
      getBufferLoop fetch failures rest =
        (none, rest, failures + rest.length + 1) := by
  intro rest
  induction rest with
  | nil => intro f; simp [getBufferLoop, h]
  | cons d t ih =>
    intro f
    simp only [getBufferLoop, h, ih (f + 1), List.length_cons]
    refine Prod.ext rfl (Prod.ext rfl ?_)
    simp
    omega

/-- C4: with a backoff sequence of length N and a fetch that always fails
transiently, `get_buffer` makes exactly N retries (each consuming one
element of the sequence and sleeping that element's delay, in order) and
then returns the best available result — here `(None, None)` — without
raising an exception. -/
theorem get_buffer_retry_exhaustion (fetch : Nat → Option FetchResult)
    (failSleep : List Nat) (h : ∀ n, fetch n = none) :
    get_buffer fetch failSleep =
      ⟨.ok (none, none), failSleep, failSleep.length + 1⟩ := by
  simp [get_buffer, getBufferLoop_always_fail fetch h failSleep 0]

/-- Witness for C4 at the concrete backoff sequence `[1, 2, 5]`. -/
theorem get_buffer_retry_exhaustion_witness :
    get_buffer (fun _ => none) [1, 2, 5] =
      ⟨.ok (none, none), [1, 2, 5], 4⟩ :=
  get_buffer_retry_exhaustion (fun _ => none) [1, 2, 5] (fun _ => rfl)

/-- C5: whenever the retry loop obtained a response, `get_buffer` checks
the payload for the three poison markers regardless of the HTTP status:
a body containing the rate-limit marker always raises the rate-limit
error; otherwise the not-found marker raises its own error; otherwise the
access-denied marker raises its own error.  The three messages are the
distinct `RuntimeError` strings of the source. -/
theorem get_buffer_poison_markers (fetch : Nat → Option FetchResult)
    (failSleep : List Nat) (r : FetchResult)
    (hr : (getBufferLoop fetch 0 failSleep).1 = some r) :
    (bufContains r.content rateLimitMarker = true →
      (get_buffer fetch failSleep).outcome =
        .error "Exceeded SEC request rate threshold; invalid data retrieved") ∧
    (bufContains r.content rateLimitMarker = false →
      bufContains r.content notFoundMarker = true →
      (get_buffer fetch failSleep).outcome =
        .error "HTTP 404 for requested path") ∧
    (bufContains r.content rateLimitMarker = false →
      bufContains r.content notFoundMarker = false →
      bufContains r.content accessDeniedMarker = true →
      (get_buffer fetch failSleep).outcome =
        .error "Access denied accessing path") := by
  refine ⟨fun h1 => ?_, fun h1 h2 => ?_, fun h1 h2 h3 => ?_⟩ <;>
    simp [get_buffer, hr, *]

/-- Witness for C5: a 200-status response whose body contains the
rate-limit marker yields the rate-limit error. -/
theorem get_buffer_poison_markers_witness :
    (get_buffer (fun _ => some ⟨200, rateLimitMarker, none⟩) []).outcome =
      .error "Exceeded SEC request rate threshold; invalid data retrieved" :=
  (get_buffer_poison_markers (fun _ => some ⟨200, rateLimitMarker, none⟩)
    [] ⟨200, rateLimitMarker, none⟩ rfl).1 (by decide)

/-! ## Listing Parser theorems -/

/-- C7 counterexample: under listing path `"/Archives/edgar/data/100/"`
the relative href `"0000912057-24-000001.txt"` is joined with an extra
`"/"` separator, producing a double slash — not the single-slash path the
claim states. -/
theorem normalizeHref_relative_counterexample :
    normalizeHref "/Archives/edgar/data/100/" "0000912057-24-000001.txt" =
      "/Archives/edgar/data/100//0000912057-24-000001.txt" ∧
    normalizeHref "/Archives/edgar/data/100/" "0000912057-24-000001.txt" ≠
      "/Archives/edgar/data/100/0000912057-24-000001.txt" := by
  decide

/-- C7 amended: an absolute-rooted href is returned unchanged; a relative
href is joined onto the current listing path with a `"/"` separator
(after stripping the href's leading slashes), so a listing path that ends
in `"/"` yields a double slash: the example relative href under
`"/Archives/edgar/data/100/"` yields
`"/Archives/edgar/data/100//0000912057-24-000001.txt"`, and the absolute
href `"/Archives/x"` is returned as `"/Archives/x"`.  The last conjunct
states the same for a whole parsed listing page. -/
theorem list_path_href_normalization (remote_path href : String)
    (parseHtml : Buffer → HtmlDoc) (buf : Buffer) (links : List Link) :
    (pyStartsWith href "/" = true → normalizeHref remote_path href = href) ∧
    (pyStartsWith href "/" = false →
      normalizeHref remote_path href =
        remote_path ++ "/" ++ pyLstripSlash href) ∧
    ((parseHtml buf).mainContent = some links →
      list_path parseHtml remote_path (some buf) =
        some ((links.filter
          (fun l => !strContains l.text "Parent Directory")).map
            (fun l => normalizeHref remote_path l.href))) := by
  refine ⟨fun h => ?_, fun h => ?_, fun h => ?_⟩
  · simp [normalizeHref, h]
  · simp [normalizeHref, h, pyJoin]
  · simp [list_path, h]

/-- Witness for the amended C7 at the two example hrefs of the claim. -/
theorem list_path_href_normalization_witness :
    normalizeHref "/Archives/edgar/data/100/" "/Archives/x" = "/Archives/x" ∧
    normalizeHref "/Archives/edgar/data/100/" "0000912057-24-000001.txt" =
      "/Archives/edgar/data/100/" ++ "/" ++
        pyLstripSlash "0000912057-24-000001.txt" :=
  ⟨(list_path_href_normalization "/Archives/edgar/data/100/" "/Archives/x"
      (fun _ => ⟨none⟩) [] []).1 (by decide),
   (list_path_href_normalization "/Archives/edgar/data/100/"
      "0000912057-24-000001.txt" (fun _ => ⟨none⟩) [] []).2.1 (by decide)⟩

/-- C8: `list_path` returns the empty sequence — not an error — when the
retriever produced no buffer, and returns the hard parse failure `None`
when the parsed HTML has no `main-content` element. -/
theorem list_path_empty_and_missing_container
    (parseHtml : Buffer → HtmlDoc) (remote_path : String) :
    list_path parseHtml remote_path none = some [] ∧
    (∀ buf : Buffer, (parseHtml buf).mainContent = none →
      list_path parseHtml remote_path (some buf) = none) := by
  refine ⟨rfl, fun buf h => ?_⟩
  simp [list_path, h]

/-- Witness for C8 at a concrete parser with no `main-content`. -/
theorem list_path_empty_and_missing_container_witness :
    list_path (fun _ => ⟨none⟩) "/Archives/" none = some [] ∧
    list_path (fun _ => ⟨none⟩) "/Archives/" (some [0]) = none :=
  ⟨(list_path_empty_and_missing_container (fun _ => ⟨none⟩) "/Archives/").1,
   (list_path_empty_and_missing_container (fun _ => ⟨none⟩) "/Archives/").2
     [0] rfl⟩

/-! ## Content Store / document-record theorems -/

/-- C10: the `FilingDocument` records of `create_filing_documents` do not
depend on the store state or on the storage flags; on a successful bulk
create they are exactly one record per parsed document; and every built
record has `is_processed = true` unconditionally and `is_error = true`
exactly when the document's raw content slice is non-empty. -/
theorem filing_document_row_flags
    (st st2 : Store) (existing : List DocRow) (docs : List DocumentData)
    (acc : String) (sr tx sr2 tx2 : Bool) :
    ((create_filing_documents st existing docs acc sr tx).2 =
      (create_filing_documents st2 existing docs acc sr2 tx2).2) ∧
    (∀ rows,
      (create_filing_documents st existing docs acc sr tx).2 = .ok rows →
      rows = existing ++ docs.map (mkDocRow acc)) ∧
    (∀ d : DocumentData, (mkDocRow acc d).is_processed = true ∧
      ((mkDocRow acc d).is_error = true ↔ d.content ≠ [])) := by
  refine ⟨?_, fun rows h => ?_, fun d => ⟨rfl, ?_⟩⟩
  · simp only [create_filing_documents]
    split <;> rfl
  · simp only [create_filing_documents] at h
    split at h
    · simpa using h.symm
    · simp at h
  · simp [mkDocRow, List.length_pos]

/-- Witness for C10 on the concrete one-document batch `[docC]`. -/
theorem filing_document_row_flags_witness :
    [mkDocRow "A" docC] = [] ++ [docC].map (mkDocRow "A") ∧
    (mkDocRow "A" docC).is_error = true :=
  ⟨(filing_document_row_flags [] [] [] [docC] "A" true false true false).2.1
      [mkDocRow "A" docC] (by decide),
   ((filing_document_row_flags [] [] [] [docC] "A" true false true
      false).2.2 docC).2.mpr (by decide)⟩

/-- `path_exists` is membership among the stored paths. -/
theorem path_exists_iff (st : Store) (p : StorePath) :
    path_exists st p = true ↔ p ∈ st.map Prod.fst := by
  simp only [path_exists, List.any_eq_true, decide_eq_true_eq, List.mem_map]

/-- `putIfAbsent` preserves distinctness of stored paths. -/
theorem putIfAbsent_keys_nodup (st : Store) (p : StorePath) (v : ContentVal)
    (h : (st.map Prod.fst).Nodup) :
    ((putIfAbsent st p v).map Prod.fst).Nodup := by
  unfold putIfAbsent
  split
  · exact h
  · rename_i hne
    have hnm : p ∉ st.map Prod.fst := fun hm =>
      hne ((path_exists_iff st p).mpr hm)
    simp only [put_buffer, List.map_append, List.map_cons, List.map_nil]
    exact List.nodup_append.mpr
      ⟨h, List.nodup_singleton p, by simpa using hnm⟩

/-- `putIfAbsent` never removes a stored path. -/
theorem putIfAbsent_mem_mono (st : Store) (p q : StorePath)
    (v : ContentVal) (h : q ∈ st.map Prod.fst) :
    q ∈ (putIfAbsent st p v).map Prod.fst := by
  unfold putIfAbsent
  split
  · exact h
  · simp [put_buffer, h]

/-- After `putIfAbsent st p v` the path `p` is stored. -/
theorem putIfAbsent_mem_self (st : Store) (p : StorePath)
    (v : ContentVal) : p ∈ (putIfAbsent st p v).map Prod.fst := by
  unfold putIfAbsent
  split
  · exact (path_exists_iff st p).mp (by assumption)
  · simp [put_buffer]

/-- A guarded put stage (`putIfAbsent` or no-op) keeps paths distinct. -/
theorem stage_keys_nodup {c : Prop} [Decidable c] (st : Store)
    (p : StorePath) (v : ContentVal) (h : (st.map Prod.fst).Nodup) :
    (((if c then putIfAbsent st p v else st).map Prod.fst)).Nodup := by
  split
  · exact putIfAbsent_keys_nodup st p v h
  · exact h

/-- A guarded put stage never removes a stored path. -/
theorem stage_mem_mono {c : Prop} [Decidable c] (st : Store)
    (p q : StorePath) (v : ContentVal) (h : q ∈ st.map Prod.fst) :
    q ∈ (if c then putIfAbsent st p v else st).map Prod.fst := by
  split
  · exact putIfAbsent_mem_mono st p q v h
  · exact h

/-- `storeDocStep` keeps the stored paths distinct. -/
theorem storeDocStep_keys_nodup (sr tx : Bool) (st : Store)
    (d : DocumentData) (h : (st.map Prod.fst).Nodup) :
    ((storeDocStep sr tx st d).map Prod.fst).Nodup := by
  unfold storeDocStep
  cases hct : d.content_text with
  | none => exact stage_keys_nodup st _ _ h
  | some t => exact stage_keys_nodup _ _ _ (stage_keys_nodup st _ _ h)

/-- `storeDocStep` never removes a stored path. -/
theorem storeDocStep_mem_mono (sr tx : Bool) (st : Store)
    (d : DocumentData) (q : StorePath) (h : q ∈ st.map Prod.fst) :
    q ∈ (storeDocStep sr tx st d).map Prod.fst := by
  unfold storeDocStep
  cases hct : d.content_text with
  | none => exact stage_mem_mono st _ _ _ h
  | some t => exact stage_mem_mono _ _ _ _ (stage_mem_mono st _ _ _ h)

/-- With raw storage on and non-empty content, `storeDocStep` ensures the
raw blob of the document is stored. -/
theorem storeDocStep_mem_raw (tx : Bool) (st : Store) (d : DocumentData)
    (hne : d.content ≠ []) :
    (Kind.raw, d.sha1) ∈ (storeDocStep true tx st d).map Prod.fst := by
  unfold storeDocStep
  rw [if_pos ⟨rfl, List.length_pos.mpr hne⟩]
  cases hct : d.content_text with
  | none => exact putIfAbsent_mem_self st _ _
  | some t => exact stage_mem_mono _ _ _ _ (putIfAbsent_mem_self st _ _)

/-- The per-document store fold keeps the stored paths distinct. -/
theorem storeFold_keys_nodup (sr tx : Bool) (docs : List DocumentData) :
    ∀ st : Store, (st.map Prod.fst).Nodup →
      ((docs.foldl (storeDocStep sr tx) st).map Prod.fst).Nodup := by
  induction docs with
  | nil => exact fun st h => h
  | cons d t ih =>
    exact fun st h => ih _ (storeDocStep_keys_nodup sr tx st d h)

/-- The per-document store fold never removes a stored path. -/
theorem storeFold_mem_mono (sr tx : Bool) (docs : List DocumentData)
    (q : StorePath) :
    ∀ st : Store, q ∈ st.map Prod.fst →
      q ∈ (docs.foldl (storeDocStep sr tx) st).map Prod.fst := by
  induction docs with
  | nil => exact fun st h => h
  | cons d t ih =>
    exact fun st h => ih _ (storeDocStep_mem_mono sr tx st d q h)

/-- With raw storage on, the fold stores the raw blob of every non-empty
document of the batch. -/
theorem storeFold_mem_raw (tx : Bool) (docs : List DocumentData)
    (d : DocumentData) (hd : d ∈ docs) (hne : d.content ≠ []) :
    ∀ st : Store,
      (Kind.raw, d.sha1) ∈
        (docs.foldl (storeDocStep true tx) st).map Prod.fst := by
  induction docs with
  | nil => cases hd
  | cons e t ih =>
    intro st
    rcases List.mem_cons.mp hd with rfl | hdt
    · exact storeFold_mem_mono true tx t _ _
        (storeDocStep_mem_raw tx st d hne)
    · exact ih hdt _

/-- Distinct stored paths bound the per-path blob count by one. -/
theorem keyCount_le_one_of_nodup (p : StorePath) :
    ∀ st : Store, (st.map Prod.fst).Nodup →
      st.countP (fun e => e.1 = p) ≤ 1 := by
  intro st
  induction st with
  | nil => intro _; simp
  | cons e t ih =>
    intro h
    rw [List.map_cons, List.nodup_cons] at h
    rw [List.countP_cons]
    by_cases he : e.1 = p
    · have ht : t.countP (fun e => e.1 = p) = 0 := by
        rw [List.countP_eq_zero]
        intro a ha
        simp only [decide_eq_true_eq]
        intro hap
        exact h.1 (he ▸ hap ▸ List.mem_map_of_mem Prod.fst ha)
      simp [ht, he]
    · simp [he, ih h.2]

/-- A stored path has at least one blob. -/
theorem keyCount_pos_of_mem (st : Store) (p : StorePath)
    (h : p ∈ st.map Prod.fst) : 0 < st.countP (fun e => e.1 = p) := by
  rw [List.countP_pos_iff]
  rcases List.mem_map.mp h with ⟨e, he, hep⟩
  exact ⟨e, he, by simp [hep]⟩

/-- The store component of `create_filing_documents` is the per-document
fold, whether or not the bulk create succeeds. -/
theorem create_filing_documents_store (st : Store) (existing : List DocRow)
    (docs : List DocumentData) (acc : String) (sr tx : Bool) :
    (create_filing_documents st existing docs acc sr tx).1 =
      docs.foldl (storeDocStep sr tx) st := by
  unfold create_filing_documents
  dsimp only
  split <;> rfl

/-- A second splitter document, in a different filing, with content
byte-identical to `docC`. -/
def docC2 : DocumentData :=
  ⟨some "EX-99", 1, none, none, none, sha1 [7], 0, 1, [7], none⟩

/-- C6: content-store writes are content-addressed and deduplicated.
First conjunct: a document step whose raw and text paths both already
exist writes nothing (the put is skipped, still success).  Second
conjunct: processing two filings that each contain a byte-identical
non-empty sub-document leaves exactly one stored raw blob for that
content.  Third conjunct: the two Document rows reference that one blob
through the same content hash. -/
theorem content_store_dedup
    (st0 : Store) (h0 : (st0.map Prod.fst).Nodup)
    (ex1 ex2 : List DocRow) (docs1 docs2 : List DocumentData)
    (a1 a2 : String) (tx1 tx2 : Bool) (d1 d2 : DocumentData)
    (h1 : d1 ∈ docs1) (h2 : d2 ∈ docs2)
    (hc : d2.content = d1.content) (hne : d1.content ≠ [])
    (hs1 : d1.sha1 = sha1 d1.content) (hs2 : d2.sha1 = sha1 d2.content) :
    (∀ (sr tx : Bool) (st : Store) (d : DocumentData),
      path_exists st (Kind.raw, d.sha1) = true →
      path_exists st (Kind.text, d.sha1) = true →
      storeDocStep sr tx st d = st) ∧
    ((create_filing_documents
        (create_filing_documents st0 ex1 docs1 a1 true tx1).1
        ex2 docs2 a2 true tx2).1.countP
      (fun e => e.1 = (Kind.raw, sha1 d1.content)) = 1) ∧
    ((Kind.raw, sha1 d2.content) ∈
      (create_filing_documents
        (create_filing_documents st0 ex1 docs1 a1 true tx1).1
        ex2 docs2 a2 true tx2).1.map Prod.fst) ∧
    (mkDocRow a1 d1).sha1 = (mkDocRow a2 d2).sha1 := by
  refine ⟨fun sr tx st d hraw htext => ?_, ?_, ?_, ?_⟩
  · unfold storeDocStep
    dsimp only
    cases hct : d.content_text <;> simp [putIfAbsent, hraw, htext]
  · rw [create_filing_documents_store, create_filing_documents_store]
    have hnA : ((docs1.foldl (storeDocStep true tx1) st0).map
        Prod.fst).Nodup := storeFold_keys_nodup _ _ _ _ h0
    have hnB : ((docs2.foldl (storeDocStep true tx2)
        (docs1.foldl (storeDocStep true tx1) st0)).map Prod.fst).Nodup :=
      storeFold_keys_nodup _ _ _ _ hnA
    have hmA : (Kind.raw, sha1 d1.content) ∈
        (docs1.foldl (storeDocStep true tx1) st0).map Prod.fst := by
      have hm := storeFold_mem_raw tx1 docs1 d1 h1 hne st0
      rwa [hs1] at hm
    have hmB : (Kind.raw, sha1 d1.content) ∈
        (docs2.foldl (storeDocStep true tx2)
          (docs1.foldl (storeDocStep true tx1) st0)).map Prod.fst :=
      storeFold_mem_mono _ _ _ _ _ hmA
    have hle := keyCount_le_one_of_nodup (Kind.raw, sha1 d1.content) _ hnB
    have hpos := keyCount_pos_of_mem _ _ hmB
    omega
  · rw [create_filing_documents_store, create_filing_documents_store]
    have hne2 : d2.content ≠ [] := by rw [hc]; exact hne
    have hm2 := storeFold_mem_raw tx2 docs2 d2 h2 hne2
      (docs1.foldl (storeDocStep true tx1) st0)
    rwa [hs2] at hm2
  · simp [mkDocRow, hs1, hs2, hc]

/-- Witness for C6: the byte-identical documents `docC` (filing "A") and
`docC2` (filing "B") leave exactly one stored raw blob. -/
theorem content_store_dedup_witness :
    (create_filing_documents
        (create_filing_documents [] [] [docC] "A" true false).1
        [] [docC2] "B" true false).1.countP
      (fun e => e.1 = (Kind.raw, sha1 docC.content)) = 1 :=
  (content_store_dedup [] (by decide) [] [] [docC] [docC2] "A" "B"
    false false docC docC2 (by decide) (by decide) rfl (by decide)
    rfl rfl).2.1

/-! ## Catalog Reconciler lemmas -/

/-- A successful `company.save()` only appends the company row. -/
theorem trySaveCompany_ok_fields (db : DB) (c : Company) (db1 : DB)
    (h : trySaveCompany db c = .ok db1) :
    db1 = { db with companies := db.companies ++ [c] } := by
  unfold trySaveCompany at h
  split at h
  · cases h
  · cases h; rfl

/-- The company reconciliation step of `process_filing` never touches the
filing or document tables. -/
theorem getOrCreateCompany_preserves (db : DB) (race : Option Company)
    (fd : FilingData) (cik : Nat) :
    (getOrCreateCompany db race fd cik).1.filings = db.filings ∧
    (getOrCreateCompany db race fd cik).1.filing_documents =
      db.filing_documents := by
  unfold getOrCreateCompany
  cases hf : findCompany db cik with
  | some c =>
    dsimp only
    split <;> exact ⟨rfl, rfl⟩
  | none =>
    dsimp only
    cases race with
    | none =>
      dsimp only
      cases hs : trySaveCompany db ⟨cik, none⟩ with
      | ok db1 =>
        have hd := trySaveCompany_ok_fields db _ db1 hs
        subst hd
        dsimp only
        split <;> exact ⟨rfl, rfl⟩
      | error e => exact ⟨rfl, rfl⟩
    | some c' =>
      dsimp only
      cases hs : trySaveCompany
          { db with companies := db.companies ++ [c'] } ⟨cik, none⟩ with
      | ok db1 =>
        have hd := trySaveCompany_ok_fields _ _ db1 hs
        subst hd
        dsimp only
        split <;> exact ⟨rfl, rfl⟩
      | error e => exact ⟨rfl, rfl⟩

/-- The upserted row is always present after `filing.save()`. -/
theorem mem_saveFilingUpsert (fs : List FilingRow) (row : FilingRow) :
    row ∈ saveFilingUpsert fs row := by
  unfold saveFilingUpsert
  split
  · rename_i h
    rcases List.any_eq_true.mp h with ⟨r, hr, hracc⟩
    rw [decide_eq_true_eq] at hracc
    exact List.mem_map.mpr ⟨r, hr, by simp [hracc]⟩
  · simp

/-- `filing.save()` inserts when no row has the same accession number. -/
theorem saveFilingUpsert_append (fs : List FilingRow) (row : FilingRow)
    (h : ∀ r ∈ fs, r.accession_number ≠ row.accession_number) :
    saveFilingUpsert fs row = fs ++ [row] := by
  unfold saveFilingUpsert
  rw [if_neg]
  intro hany
  rcases List.any_eq_true.mp hany with ⟨r, hr, hracc⟩
  rw [decide_eq_true_eq] at hracc
  exact h r hr hracc

/-- `filing.save()` updates in place the single trailing row that shares
the accession number. -/
theorem saveFilingUpsert_update_last (fs : List FilingRow)
    (row row2 : FilingRow)
    (hacc : row.accession_number = row2.accession_number)
    (h : ∀ r ∈ fs, r.accession_number ≠ row2.accession_number) :
    saveFilingUpsert (fs ++ [row]) row2 = fs ++ [row2] := by
  unfold saveFilingUpsert
  rw [if_pos]
  · rw [List.map_append]
    congr 1
    · rw [List.map_congr_left fun r hr => if_neg (h r hr)]
      exact List.map_id fs
    · simp [hacc]
  · exact List.any_eq_true.mpr ⟨row, by simp, by simp [hacc]⟩

/-- The shared tail of `create_filing_error` reports success, never
touches companies or documents, and appends exactly the error filing. -/
theorem createFilingErrorFinish_spec (db : DB) (row : IndexRow)
    (fp : String) (checkInfo : Bool) :
    (createFilingErrorFinish db row fp checkInfo).2 = true ∧
    (createFilingErrorFinish db row fp checkInfo).1.companies =
      db.companies ∧
    (createFilingErrorFinish db row fp checkInfo).1.filing_documents =
      db.filing_documents ∧
    (createFilingErrorFinish db row fp checkInfo).1.filings =
      db.filings ++ [mkErrorFiling row fp row.cik] := by
  unfold createFilingErrorFinish
  dsimp only
  split <;> exact ⟨rfl, rfl, rfl, rfl⟩

/-- `create_filing_error` without interference: reports success, keeps the
document table, and appends exactly the error filing. -/
theorem create_filing_error_base_spec (db : DB) (row : IndexRow)
    (fp : String) :
    (create_filing_error_base db row fp).2 = true ∧
    (create_filing_error_base db row fp).1.filing_documents =
      db.filing_documents ∧
    (create_filing_error_base db row fp).1.filings =
      db.filings ++ [mkErrorFiling row fp row.cik] := by
  unfold create_filing_error_base
  cases hf : findCompany db row.cik with
  | some c =>
    have hsp := createFilingErrorFinish_spec db row fp true
    exact ⟨hsp.1, hsp.2.2.1, hsp.2.2.2⟩
  | none =>
    dsimp only
    cases hs : trySaveCompany db ⟨row.cik, row.company_name⟩ with
    | ok db1 =>
      have hd := trySaveCompany_ok_fields db _ db1 hs
      subst hd
      have hsp := createFilingErrorFinish_spec
        { db with companies := db.companies ++ [⟨row.cik, row.company_name⟩] }
        row fp false
      exact ⟨hsp.1, hsp.2.2.1, hsp.2.2.2⟩
    | error e =>
      have hsp := createFilingErrorFinish_spec db row fp false
      exact ⟨hsp.1, hsp.2.2.1, hsp.2.2.2⟩

/-- `create_filing_error` under any interference: reports success, keeps
the document table, and appends exactly the error filing. -/
theorem create_filing_error_spec (race : Option Company) (db : DB)
    (row : IndexRow) (fp : String) :
    (create_filing_error race db row fp).2 = true ∧
    (create_filing_error race db row fp).1.filing_documents =
      db.filing_documents ∧
    (create_filing_error race db row fp).1.filings =
      db.filings ++ [mkErrorFiling row fp row.cik] := by
  unfold create_filing_error
  cases race with
  | none => exact create_filing_error_base_spec db row fp
  | some c' =>
    dsimp only
    cases hf : findCompany db row.cik with
    | some c =>
      have hsp := createFilingErrorFinish_spec db row fp true
      exact ⟨hsp.1, hsp.2.2.1, hsp.2.2.2⟩
    | none =>
      dsimp only
      cases hs : trySaveCompany
          { db with companies := db.companies ++ [c'] }
          ⟨row.cik, row.company_name⟩ with
      | ok db1 =>
        have hd := trySaveCompany_ok_fields _ _ db1 hs
        subst hd
        have hsp := createFilingErrorFinish_spec
          { db with companies :=
              (db.companies ++ [c']) ++ [⟨row.cik, row.company_name⟩] }
          row fp false
        exact ⟨hsp.1, hsp.2.2.1, hsp.2.2.2⟩
      | error e =>
        have hsp := create_filing_error_base_spec
          { db with companies := db.companies ++ [c'] } row fp
        exact ⟨hsp.1, hsp.2.1, hsp.2.2⟩

/-! ## Orchestrator theorems -/

/-- A splitter output with no recoverable registrant identifier. -/
def fdNoCik : FilingData :=
  ⟨none, none, none, none, none, some "10-K", "A", some 1, 1, [docC]⟩

/-- C3: when no CIK can be parsed from the raw buffer, `process_filing`
halts at once and returns `None`: no catalog row, no document row and no
store write is produced (never a partial success), and no retry happens
inside the orchestrator.  The caller's error recorder
`create_filing_error` then records an error-state Filing with
`is_error = true`, `is_processed = false`, and adds no documents. -/
theorem process_filing_missing_cik_abort
    (db : DB) (st : Store) (race race' : Option Company)
    (parse : Buffer → FilingData) (p : String) (buf : Buffer)
    (sr tx : Bool) (row : IndexRow) (fp : String)
    (hguard : db.filings.filter (fun f => f.s3_path = p) = [])
    (hcik : (parse buf).cik = none) :
    process_filing db st race parse p buf sr tx =
      ⟨db, st, none, [], true⟩ ∧
    ((create_filing_error race' db row fp).2 = true ∧
      (create_filing_error race' db row fp).1.filing_documents =
        db.filing_documents ∧
      ∃ f, (create_filing_error race' db row fp).1.filings =
          db.filings ++ [f] ∧
        f.is_error = true ∧ f.is_processed = false) := by
  constructor
  · unfold process_filing
    rw [hguard]
    dsimp only
    rw [hcik]
  · have hsp := create_filing_error_spec race' db row fp
    exact ⟨hsp.1, hsp.2.1, mkErrorFiling row fp row.cik, hsp.2.2, rfl, rfl⟩

/-- Witness for C3 on a concrete CIK-less buffer and index row. -/
theorem process_filing_missing_cik_abort_witness :
    process_filing dbEmpty [] none (fun _ => fdNoCik) "p" [9] true true =
      ⟨dbEmpty, [], none, [], true⟩ ∧
    (create_filing_error none dbEmpty ⟨100, some "ACME", some "10-K", some 1⟩
      "p").2 = true :=
  ⟨(process_filing_missing_cik_abort dbEmpty [] none none
      (fun _ => fdNoCik) "p" [9] true true
      ⟨100, some "ACME", some "10-K", some 1⟩ "p" rfl rfl).1,
   (process_filing_missing_cik_abort dbEmpty [] none none
      (fun _ => fdNoCik) "p" [9] true true
      ⟨100, some "ACME", some "10-K", some 1⟩ "p" rfl rfl).2.1⟩

/-- Reduction of `process_filing` past the already-created guard and the
CIK check: the run is determined by the document-commit outcome. -/
theorem process_filing_eq (db : DB) (st : Store) (race : Option Company)
    (parse : Buffer → FilingData) (p : String) (buf : Buffer)
    (sr tx : Bool) (c : Nat)
    (hguard : db.filings.filter (fun f => f.s3_path = p) = [])
    (hcik : (parse buf).cik = some c) :
    process_filing db st race parse p buf sr tx =
      (let db1 := (getOrCreateCompany db race (parse buf) c).1
       let row := newFilingRow (parse buf) c p buf
       let db2 := { db1 with filings := saveFilingUpsert db1.filings row }
       let out := create_filing_documents st db2.filing_documents
         (parse buf).documents (parse buf).accession_number sr tx
       match out.2 with
       | .error _ => ⟨db2, out.1, none, [row], true⟩
       | .ok docs =>
         let row2 := { row with is_processed := true, is_error := false }
         let db3 := { db2 with
           filing_documents := docs,
           filings := saveFilingUpsert db2.filings row2 }
         ⟨db3, out.1, some row2, [row, row2], true⟩) := by
  unfold process_filing
  rw [hguard]
  dsimp only
  rw [hcik]

/-- C2: past the guard, a new Filing row is first saved pessimistically
(`is_error = true`, `is_processed = false`); when the document commit
fails the run returns `None` with that pessimistic row as the only filing
save, still present in the catalog; when it succeeds, the returned row is
the same row flipped to `is_processed = true`, `is_error = false`, saved
as the second and last filing save. -/
theorem process_filing_pessimistic_lifecycle
    (db : DB) (st : Store) (race : Option Company)
    (parse : Buffer → FilingData) (p : String) (buf : Buffer)
    (sr tx : Bool) (c : Nat)
    (hguard : db.filings.filter (fun f => f.s3_path = p) = [])
    (hcik : (parse buf).cik = some c) :
    ((newFilingRow (parse buf) c p buf).is_error = true ∧
      (newFilingRow (parse buf) c p buf).is_processed = false) ∧
    ((process_filing db st race parse p buf sr tx).ret = none →
      (process_filing db st race parse p buf sr tx).filingSaves =
        [newFilingRow (parse buf) c p buf] ∧
      newFilingRow (parse buf) c p buf ∈
        (process_filing db st race parse p buf sr tx).db.filings) ∧
    (∀ f, (process_filing db st race parse p buf sr tx).ret = some f →
      (process_filing db st race parse p buf sr tx).filingSaves =
        [newFilingRow (parse buf) c p buf, f] ∧
      f = { newFilingRow (parse buf) c p buf with
              is_processed := true, is_error := false } ∧
      f ∈ (process_filing db st race parse p buf sr tx).db.filings) := by
  rw [process_filing_eq db st race parse p buf sr tx c hguard hcik]
  dsimp only
  refine ⟨⟨rfl, rfl⟩, ?_, ?_⟩
  · cases hres : (create_filing_documents st
        (getOrCreateCompany db race (parse buf) c).1.filing_documents
        (parse buf).documents (parse buf).accession_number sr tx).2 with
    | error e =>
      intro _
      exact ⟨rfl, mem_saveFilingUpsert _ _⟩
    | ok docs =>
      intro h
      cases h
  · cases hres : (create_filing_documents st
        (getOrCreateCompany db race (parse buf) c).1.filing_documents
        (parse buf).documents (parse buf).accession_number sr tx).2 with
    | error e =>
      intro f hf
      cases hf
    | ok docs =>
      intro f hf
      cases hf
      exact ⟨rfl, rfl, mem_saveFilingUpsert _ _⟩

/-- Witness for C2: a successful concrete run flips the pessimistic row. -/
theorem process_filing_pessimistic_lifecycle_witness :
    (newFilingRow fdC 100 "p" [7, 7]).is_error = true ∧
    (process_filing dbEmpty [] none (fun _ => fdC) "p" [7, 7] false
        false).filingSaves =
      [newFilingRow fdC 100 "p" [7, 7],
       { newFilingRow fdC 100 "p" [7, 7] with
           is_processed := true, is_error := false }] :=
  ⟨(process_filing_pessimistic_lifecycle dbEmpty [] none (fun _ => fdC)
      "p" [7, 7] false false 100 rfl rfl).1.1,
   ((process_filing_pessimistic_lifecycle dbEmpty [] none (fun _ => fdC)
      "p" [7, 7] false false 100 rfl rfl).2.2
      { newFilingRow fdC 100 "p" [7, 7] with
          is_processed := true, is_error := false } (by decide)).1⟩

/-- C9: a uniqueness violation raised by a concurrent creation of the
same Company is caught inside the reconciler and resolved by re-reading
the existing row.  For `process_filing`'s reconciler: with a fresh CIK
and a concurrent insert of that CIK, the returned company is the raced-in
existing row, the table holds exactly one row for the CIK, and no error
escapes (the function returns normally).  For `create_filing_error`: the
retry after the caught `IntegrityError` completes with success and the
company table still holds only the raced-in row. -/
theorem reconciler_race_recovery (db : DB) (c' : Company) (cik : Nat)
    (fd : FilingData) (hfresh : findCompany db cik = none)
    (hcik : c'.cik = cik) :
    ((getOrCreateCompany db (some c') fd cik).1.companies =
        db.companies ++ [c'] ∧
      (getOrCreateCompany db (some c') fd cik).2 = c' ∧
      (getOrCreateCompany db (some c') fd cik).1.companies.countP
        (fun co => co.cik = cik) = 1) ∧
    (∀ (row : IndexRow) (fp : String), row.cik = cik →
      (create_filing_error (some c') db row fp).2 = true ∧
      (create_filing_error (some c') db row fp).1.companies =
        db.companies ++ [c']) := by
  have hnotin : ∀ co ∈ db.companies, ¬co.cik = cik := by
    intro co hco
    exact List.find?_eq_none.mp hfresh co hco ∘ decide_eq_true
  have hany : db.companies.any (fun co => co.cik = cik) = false := by
    rw [List.any_eq_false]
    intro co hco
    simp [hnotin co hco]
  have hcount0 : db.companies.countP (fun co => co.cik = cik) = 0 := by
    rw [List.countP_eq_zero]
    intro co hco
    simp [hnotin co hco]
  have hsave : trySaveCompany { db with companies := db.companies ++ [c'] }
      ⟨cik, none⟩ = .error "IntegrityError" := by
    unfold trySaveCompany
    rw [if_pos]
    simp [List.any_append, hany, hcik]
  have hfresh2 : db.companies.find? (fun c => decide (c.cik = cik)) =
      none := hfresh
  have hfind : findCompany { db with companies := db.companies ++ [c'] }
      cik = some c' := by
    unfold findCompany
    dsimp only
    rw [List.find?_append, hfresh2]
    simp [hcik]
  constructor
  · unfold getOrCreateCompany
    rw [hfresh]
    dsimp only
    rw [hsave]
    dsimp only
    rw [hfind]
    refine ⟨rfl, rfl, ?_⟩
    rw [List.countP_append, hcount0]
    simp [hcik]
  · intro row fp hrow
    unfold create_filing_error
    dsimp only
    rw [hrow, hfresh]
    dsimp only
    have hsave2 : trySaveCompany
        { db with companies := db.companies ++ [c'] }
        ⟨cik, row.company_name⟩ = .error "IntegrityError" := by
      unfold trySaveCompany
      rw [if_pos]
      simp [List.any_append, hany, hcik]
    rw [hsave2]
    unfold create_filing_error_base
    rw [hrow, hfind]
    have hsp := createFilingErrorFinish_spec
      { db with companies := db.companies ++ [c'] } row fp true
    exact ⟨hsp.1, hsp.2.1⟩

/-- Witness for C9 at a concrete fresh CIK and raced company row. -/
theorem reconciler_race_recovery_witness :
    (getOrCreateCompany dbEmpty (some ⟨100, some "ACME"⟩) fdC 100).2 =
      ⟨100, some "ACME"⟩ ∧
    (create_filing_error (some ⟨100, some "ACME"⟩) dbEmpty
      ⟨100, some "ACME", some "10-K", some 1⟩ "p9").2 = true :=
  ⟨(reconciler_race_recovery dbEmpty ⟨100, some "ACME"⟩ 100 fdC rfl
      rfl).1.2.1,
   ((reconciler_race_recovery dbEmpty ⟨100, some "ACME"⟩ 100 fdC rfl
      rfl).2 ⟨100, some "ACME", some "10-K", some 1⟩ "p9" rfl).1⟩

/-- When any filing row carries the call's storage path, `process_filing`
returns `None` immediately and touches nothing (tasks.py lines 873-883;
the `MultipleObjectsReturned` case included). -/
theorem process_filing_existing_path (db : DB) (st : Store)
    (race : Option Company) (parse : Buffer → FilingData) (p : String)
    (buf : Buffer) (sr tx : Bool)
    (hne : db.filings.filter (fun f => f.s3_path = p) ≠ []) :
    process_filing db st race parse p buf sr tx = ⟨db, st, none, [], false⟩ := by
  unfold process_filing
  cases hfil : db.filings.filter (fun f => f.s3_path = p) with
  | nil => exact absurd hfil hne
  | cons a l => rfl

/-- The splitter stub used by the concrete C1 scenario: every buffer
parses to `fdC` (accession "A"). -/
def parseC : Buffer → FilingData := fun _ => fdC

/-- A Filing row for accession "A" already ingested under storage path
"p1" and marked processed. -/
def f0 : FilingRow :=
  ⟨some "A", some "10-K", some 1, 100, some (sha1 [7, 7]), "p1", 1,
    true, false⟩

/-- A catalog that already holds accession "A" (path "p1") with its
document row. -/
def dbX : DB := ⟨[⟨100, some "ACME"⟩], [], [f0], [mkDocRow "A" docC]⟩

/-- C1 counterexample: a Filing for accession "A" already exists (stored
under path "p1"), yet running `process_filing` on the same raw bytes
under path "p2" is not treated as already satisfied: the filing is
re-split (`parsed`), content is re-stored (a store write occurs), and the
existing Filing row is mutated — it ends in the error state. -/
theorem process_filing_accession_guard_counterexample :
    dbX.filings.any
      (fun f => f.accession_number = some fdC.accession_number) = true ∧
    (process_filing dbX [] none parseC "p2" [7, 7] true false).parsed =
      true ∧
    (process_filing dbX [] none parseC "p2" [7, 7] true false).store ≠
      [] ∧
    (process_filing dbX [] none parseC "p2" [7, 7] true false).db ≠ dbX ∧
    (process_filing dbX [] none parseC "p2" [7, 7] true
        false).db.filings.any
      (fun f => f.accession_number = some "A" ∧ f.is_error = true) =
      true := by
  decide

/-- C1 amended: the already-ingested guard is keyed on the storage path
(`s3_path = file_path`), not on the accession number.  First conjunct:
whenever a filing row with the call's path exists, the run returns `None`
with catalog and store untouched and no split.  Second and third
conjuncts: after a successful run on a fresh path and accession,
re-running `process_filing` with the same path and raw bytes changes
neither catalog nor store, returns `None` without splitting, and the
catalog holds exactly one Filing row for that accession number. -/
theorem process_filing_path_guard_idempotent
    (db : DB) (st : Store) (race : Option Company)
    (parse : Buffer → FilingData) (p : String) (buf : Buffer)
    (sr tx : Bool)
    (hs3 : ∀ f ∈ db.filings, f.s3_path ≠ p)
    (hacc : ∀ f ∈ db.filings,
      f.accession_number ≠ some (parse buf).accession_number)
    (hsucc : (process_filing db st race parse p buf sr tx).ret.isSome =
      true) :
    (∀ (db' : DB) (st' : Store),
      db'.filings.filter (fun f => f.s3_path = p) ≠ [] →
      process_filing db' st' race parse p buf sr tx =
        ⟨db', st', none, [], false⟩) ∧
    (process_filing (process_filing db st race parse p buf sr tx).db
        (process_filing db st race parse p buf sr tx).store
        race parse p buf sr tx =
      ⟨(process_filing db st race parse p buf sr tx).db,
       (process_filing db st race parse p buf sr tx).store,
       none, [], false⟩) ∧
    ((process_filing db st race parse p buf sr tx).db.filings.countP
      (fun f => f.accession_number =
        some (parse buf).accession_number) = 1) := by
  have hguard : db.filings.filter (fun f => f.s3_path = p) = [] := by
    rw [List.filter_eq_nil_iff]
    intro f hf
    simp [hs3 f hf]
  obtain ⟨c, hcik⟩ : ∃ c, (parse buf).cik = some c := by
    cases hc : (parse buf).cik with
    | some c => exact ⟨c, rfl⟩
    | none =>
      have heq : process_filing db st race parse p buf sr tx =
          ⟨db, st, none, [], true⟩ := by
        unfold process_filing
        rw [hguard]
        dsimp only
        rw [hc]
      rw [heq] at hsucc
      simp at hsucc
  refine ⟨fun db' st' hne =>
    process_filing_existing_path db' st' race parse p buf sr tx hne, ?_⟩
  rw [process_filing_eq db st race parse p buf sr tx c hguard hcik] at hsucc ⊢
  dsimp only at hsucc ⊢
  have hdb1 : (getOrCreateCompany db race (parse buf) c).1.filings =
      db.filings := (getOrCreateCompany_preserves db race (parse buf) c).1
  have hup1 : saveFilingUpsert
      (getOrCreateCompany db race (parse buf) c).1.filings
      (newFilingRow (parse buf) c p buf) =
      db.filings ++ [newFilingRow (parse buf) c p buf] := by
    rw [hdb1]
    exact saveFilingUpsert_append _ _ (fun r hr => hacc r hr)
  cases hres : (create_filing_documents st
      (getOrCreateCompany db race (parse buf) c).1.filing_documents
      (parse buf).documents (parse buf).accession_number sr tx).2 with
  | error e =>
    rw [hres] at hsucc
    simp at hsucc
  | ok docs =>
    have hup2 : saveFilingUpsert
        (saveFilingUpsert
          (getOrCreateCompany db race (parse buf) c).1.filings
          (newFilingRow (parse buf) c p buf))
        { newFilingRow (parse buf) c p buf with
            is_processed := true, is_error := false } =
        db.filings ++
          [{ newFilingRow (parse buf) c p buf with
              is_processed := true, is_error := false }] := by
      rw [hup1]
      exact saveFilingUpsert_update_last db.filings _ _ rfl
        (fun r hr => hacc r hr)
    constructor
    · apply process_filing_existing_path
      dsimp only
      rw [hup2, List.filter_append, hguard]
      simp [newFilingRow]
    · dsimp only
      rw [hup2, List.countP_append]
      have hc0 : db.filings.countP
          (fun f => f.accession_number =
            some (parse buf).accession_number) = 0 := by
        rw [List.countP_eq_zero]
        intro f hf
        simp [hacc f hf]
      rw [hc0]
      simp [newFilingRow]

/-- Witness for the amended C1: a concrete successful run followed by a
re-run with the same path and bytes. -/
theorem process_filing_path_guard_idempotent_witness :
    (process_filing (process_filing dbEmpty [] none parseC "p" [7, 7]
        true false).db
      (process_filing dbEmpty [] none parseC "p" [7, 7] true false).store
      none parseC "p" [7, 7] true false =
      ⟨(process_filing dbEmpty [] none parseC "p" [7, 7] true false).db,
       (process_filing dbEmpty [] none parseC "p" [7, 7] true
         false).store, none, [], false⟩) ∧
    ((process_filing dbEmpty [] none parseC "p" [7, 7] true
        false).db.filings.countP
      (fun f => f.accession_number = some (parseC [7, 7]).accession_number)
      = 1) :=
  ⟨(process_filing_path_guard_idempotent dbEmpty [] none parseC "p"
      [7, 7] true false (fun f hf => absurd hf (List.not_mem_nil f))
      (fun f hf => absurd hf (List.not_mem_nil f)) (by decide)).2.1,
   (process_filing_path_guard_idempotent dbEmpty [] none parseC "p"
      [7, 7] true false (fun f hf => absurd hf (List.not_mem_nil f))
      (fun f hf => absurd hf (List.not_mem_nil f)) (by decide)).2.2⟩
